import Mathlib

/-!
Shallow embedding of the `central_system` repository's session lifecycle layer
(`central_system.py`, `central_system_aryeh.py`, `charge_point.py`).

The registry `CentralSystem._chargers` is a Python dict keyed by `ChargePoint`
object and valued by the supervisor `asyncio.Task`; it is modelled as an
insertion-ordered association list keyed by object identity (`Oid`).  The
one-shot teardown signal `asyncio.Queue(maxsize=1)` is modelled by its list of
contents.  Outbound OCPP calls (`ChargePoint.call`) are modelled by an
environment mapping a session and a call payload to the correlated reply.
-/

/-- Python object identity of a `ChargePoint` instance (each `on_connect`
creates a fresh object, so identities of registered sessions are distinct). -/
abbrev Oid := Nat

/-- A charge point session object: its Python object identity together with
the charge point id string passed to `ChargePoint.__init__`. -/
structure ChargePoint where
  oid : Oid
  id : String
deriving DecidableEq

/-- Status of the supervisor task stored as the dict value in
`CentralSystem._chargers`: running, or `task.cancel()` has been requested. -/
inductive TaskStatus
  | running
  | cancelRequested
deriving DecidableEq

/-- Python exceptions raised by the embedded code paths. -/
inductive PyErr
  | keyError
  | valueError (msg : String)
  | runtimeError (msg : String)
  | timeoutError
  | cancelledError
deriving DecidableEq

/-- Outbound OCPP call payloads built by the `ChargePoint` methods in
`charge_point.py` (messages to the charge point). -/
inductive CallPayload
  | changeConfiguration (key value : String)
  | getConfiguration
  | clearCache
  | remoteStartTransaction (idTag : String) (connectorId : Nat)
deriving DecidableEq

/-- Opaque correlated reply payload returned by `ChargePoint.call`. -/
abbrev CallResult := String

/-- The correlation layer (`ocpp.ChargePoint.call`): for a session and an
outbound payload, the correlated reply — a result, or a raised exception
(timeout, closed transport, ...). -/
abbrev Env := ChargePoint → CallPayload → Except PyErr CallResult

/-- `CentralSystem._chargers`: insertion-ordered dict from `ChargePoint`
object to its supervisor task. -/
abbrev Registry := List (ChargePoint × TaskStatus)

/-- Object identities of the registry's keys, in insertion order. -/
def oidsOf (d : Registry) : List Oid :=
  d.map fun e => e.1.oid

namespace ChargePoint

/-- `ChargePoint.change_configuration` (charge_point.py): issues a
ChangeConfiguration call over the correlation layer. -/
def change_configuration (env : Env) (cp : ChargePoint) (key value : String) :
    Except PyErr CallResult :=
  env cp (CallPayload.changeConfiguration key value)

/-- `ChargePoint.get_configuration` (charge_point.py): issues a
GetConfiguration call over the correlation layer. -/
def get_configuration (env : Env) (cp : ChargePoint) : Except PyErr CallResult :=
  env cp CallPayload.getConfiguration

/-- `ChargePoint.remote_start_transaction` (charge_point.py): issues a
RemoteStartTransaction call over the correlation layer. -/
def remote_start_transaction (env : Env) (cp : ChargePoint) (idTag : String)
    (connectorId : Nat) : Except PyErr CallResult :=
  env cp (CallPayload.remoteStartTransaction idTag connectorId)

end ChargePoint

namespace CentralSystem

/-- `CentralSystem.disconnect_charger` (central_system.py): iterate the dict
in insertion order; on the first entry whose `cp.id` equals `id`, call
`task.cancel()` and return; otherwise raise
`ValueError(f"Charger ... not connected.")`.  The returned registry is the
dict after the in-place `task.cancel()`; the second component is the raised
exception, if any. -/
def disconnect_charger : Registry → String → Registry × Option PyErr
  | [], id => ([], some (PyErr.valueError ("Charger " ++ id ++ " not connected.")))
  | (cp, task) :: rest, id =>
    if cp.id = id then ((cp, TaskStatus.cancelRequested) :: rest, none)
    else
      let r := disconnect_charger rest id
      ((cp, task) :: r.1, r.2)

/-- `CentralSystem.get_configuration` (central_system.py): iterate the dict in
insertion order; on the first entry whose `cp.id` equals `id`, return
`await cp.get_configuration()`; otherwise raise `ValueError`. -/
def get_configuration : Registry → Env → String → Except PyErr CallResult
  | [], _, id => .error (PyErr.valueError ("Charger " ++ id ++ " not connected."))
  | (cp, _) :: rest, env, id =>
    if cp.id = id then ChargePoint.get_configuration env cp
    else get_configuration rest env id

/-- `CentralSystem.change_configuration` (central_system.py): for each charger
in dict order, `await cp.change_configuration(key, value)`; an exception from
one call propagates out of the loop.  Returns the list of sessions to which a
call was issued (in order, including a failing one) and the propagated
exception, if any. -/
def change_configuration : Registry → Env → String → String →
    List ChargePoint × Option PyErr
  | [], _, _, _ => ([], none)
  | (cp, _) :: rest, env, key, value =>
    match ChargePoint.change_configuration env cp key value with
    | .ok _ =>
      let r := change_configuration rest env key value
      (cp :: r.1, r.2)
    | .error e => ([cp], some e)

end CentralSystem

/-- `del self._chargers[cp]` (the first statement of `start_charger`'s
`finally` block): removes the key from the dict, raising `KeyError` when the
key is absent. -/
def dictDel (d : Registry) (x : Oid) : Except PyErr Registry :=
  if d.any (fun e => decide (e.1.oid = x)) then
    .ok (d.filter fun e => decide (e.1.oid ≠ x))
  else .error PyErr.keyError

/-- `self._chargers[cp] = task` (in `register_charger`): dict assignment —
update in place when the key is present, append otherwise. -/
def dictSet (d : Registry) (cp : ChargePoint) (t : TaskStatus) : Registry :=
  if d.any (fun e => decide (e.1.oid = cp.oid)) then
    d.map fun e => if e.1.oid = cp.oid then (e.1, t) else e
  else d ++ [(cp, t)]

/-- `queue.put(item)` on an `asyncio.Queue(maxsize=1)`, applied to the queue
keyed `x` in a table of queue contents: the item is appended when the queue is
below capacity; a put on a full queue would block (the contents are then left
as they are). -/
def queuePut1 (qs : List (Oid × List Bool)) (x : Oid) (v : Bool) :
    List (Oid × List Bool) :=
  qs.map fun p => if p.1 = x then (p.1, if p.2.length < 1 then p.2 ++ [v] else p.2) else p

/-- Mutable state shared by the acceptor, the supervisors and the control
plane: the `CentralSystem._chargers` dict and, for each registered session,
the contents of the teardown queue `register_charger` returned for it. -/
structure SysState where
  chargers : Registry
  queues : List (Oid × List Bool)
deriving DecidableEq

/-- State of a freshly constructed `CentralSystem` (empty `_chargers`). -/
def initState : SysState := ⟨[], []⟩

/-- The contents of the teardown queue registered for object identity `x`. -/
def queueOf (s : SysState) (x : Oid) : Option (List Bool) :=
  (s.queues.find? fun p => decide (p.1 = x)).map Prod.snd

/-- Which way `cp.start()` — the session's read loop — completed: normal
return, an `Exception`, or `asyncio.CancelledError` from `task.cancel()`. -/
inductive Outcome
  | normal
  | error
  | cancelled
deriving DecidableEq

namespace CentralSystem

/-- `CentralSystem.register_charger` (central_system.py): create a fresh
`asyncio.Queue(maxsize=1)`, create the supervisor task running
`start_charger(cp, queue)`, store the task in `self._chargers[cp]`, and
return the queue.  The returned queue is the entry of `queues` keyed by
`cp.oid`. -/
def register_charger (s : SysState) (cp : ChargePoint) : SysState :=
  { chargers := dictSet s.chargers cp TaskStatus.running
    queues := s.queues ++ [(cp.oid, [])] }

/-- `CentralSystem.start_charger` (central_system.py) after `await cp.start()`
completes with outcome `o`: `except Exception` swallows an error (it only
prints), `CancelledError` is not caught and propagates after the `finally`
block; the `finally` block runs `del self._chargers[cp]` and then
`await queue.put(True)`.  When the `del` raises `KeyError`, the rest of the
`finally` block is skipped and `KeyError` propagates.  Returns the new state
and the exception propagating out of the task body, if any. -/
def start_charger (s : SysState) (cp : ChargePoint) (o : Outcome) :
    SysState × Option PyErr :=
  match dictDel s.chargers cp.oid with
  | .error e => (s, some e)
  | .ok d =>
    ({ chargers := d, queues := queuePut1 s.queues cp.oid true },
     match o with
     | Outcome.cancelled => some PyErr.cancelledError
     | _ => none)

end CentralSystem

namespace CentralSystem

/-- Modelled from the spec: `CentralSystem.remote_start_transaction` is
invoked by the HTTP `remote_start` handler (`central_system_aryeh.py`) as
`csms.remote_start_transaction(id, ID_TAG, CONNECTOR_ID)` but the method is
absent from the `CentralSystem` class in the sources.  Per the spec's
administrative surface table (Remote start: session id, tag, connector
number → opaque result payload, failure `NotConnected`) and the shape of the
sibling `get_configuration`, it looks up the named session in dict order and
issues the remote-start call against it, raising `ValueError` when no
session has that id. -/
def remote_start_transaction : Registry → Env → String → String → Nat →
    Except PyErr CallResult
  | [], _, id, _, _ => .error (PyErr.valueError ("Charger " ++ id ++ " not connected."))
  | (cp, _) :: rest, env, id, idTag, connectorId =>
    if cp.id = id then ChargePoint.remote_start_transaction env cp idTag connectorId
    else remote_start_transaction rest env id idTag connectorId

end CentralSystem

/-- A CPython dict iterator over `self._chargers`: a position into the
insertion-ordered entries together with the dict's size recorded when the
iterator was created (`di_used`). -/
structure DictIter where
  pos : Nat
  size : Nat
deriving DecidableEq

/-- `iter(self._chargers)`: start before the first entry, recording the
current size. -/
def iterInit (d : Registry) : DictIter :=
  ⟨0, d.length⟩

/-- One `next()` on a CPython dict iterator: if the dict's size differs from
the size recorded at creation, raise
`RuntimeError("dictionary changed size during iteration")`; otherwise yield
the next entry, or end the iteration. -/
def iterNext (d : Registry) (it : DictIter) :
    Except PyErr (Option ((ChargePoint × TaskStatus) × DictIter)) :=
  if d.length ≠ it.size then
    .error (PyErr.runtimeError "dictionary changed size during iteration")
  else
    match d.drop it.pos with
    | [] => .ok none
    | e :: _ => .ok (some (e, ⟨it.pos + 1, it.size⟩))

/-- One realizable interleaving of `CentralSystem.change_configuration`'s
`for cp in self._chargers` loop with a concurrent supervisor teardown: the
registry holds `cpA` then `cpB`; the loop creates the dict iterator, obtains
the first entry and awaits `cp.change_configuration(key, value)` — a
suspension point, during which `cpB`'s read loop completes and its
supervisor's `finally` block (`start_charger`) deletes `cpB` from the dict —
then the loop resumes the iterator.  Returns the sessions that received the
call, or the exception propagating out of the loop. -/
def change_configuration_with_concurrent_teardown (cpA cpB : ChargePoint)
    (env : Env) (key value : String) : Except PyErr (List ChargePoint) :=
  let s0 := CentralSystem.register_charger
    (CentralSystem.register_charger initState cpA) cpB
  let it0 := iterInit s0.chargers
  match iterNext s0.chargers it0 with
  | .error e => .error e
  | .ok none => .ok []
  | .ok (some (e1, it1)) =>
    match ChargePoint.change_configuration env e1.1 key value with
    | .error e => .error e
    | .ok _ =>
      let s1 := (CentralSystem.start_charger s0 cpB Outcome.normal).1
      match iterNext s1.chargers it1 with
      | .error e => .error e
      | .ok none => .ok [e1.1]
      | .ok (some (e2, _)) =>
        match ChargePoint.change_configuration env e2.1 key value with
        | .error e => .error e
        | .ok _ => .ok [e1.1, e2.1]

/-- Python `path.strip("/")`: remove leading and trailing `/` characters. -/
def pyStripSlashes (s : String) : String :=
  String.mk (((s.toList.dropWhile fun c => c = '/').reverse.dropWhile
    fun c => c = '/').reverse)

/-- The session id computed by `on_connect` (central_system_aryeh.py):
`charge_point_id = path.strip("/")`, and an empty result is replaced by the
sentinel `"none"`. -/
def on_connect_id (path : String) : String :=
  let cid := pyStripSlashes path
  if cid = "" then "none" else cid

/-- `on_connect` (central_system_aryeh.py): compute the id from the path,
construct a fresh `ChargePoint` (object identity `x`) and register it at the
CSMS; the handler then blocks on `queue.get()`. -/
def on_connect (s : SysState) (path : String) (x : Oid) : SysState :=
  CentralSystem.register_charger s ⟨x, on_connect_id path⟩

/-- The shared-state operations of the program, as scheduled by the event
loop: a new connection registers a fresh session; a session's read loop
completes (with any outcome) and its supervisor runs the teardown in
`start_charger`; the control plane requests `disconnect_charger`. -/
inductive Op
  | register (cp : ChargePoint)
  | teardown (cp : ChargePoint) (o : Outcome)
  | disconnect (id : String)
deriving DecidableEq

/-- Effect of one operation on the shared state. -/
def step (s : SysState) : Op → SysState
  | Op.register cp => CentralSystem.register_charger s cp
  | Op.teardown cp o => (CentralSystem.start_charger s cp o).1
  | Op.disconnect id =>
    { s with chargers := (CentralSystem.disconnect_charger s.chargers id).1 }

/-- Run a sequence of operations from a state. -/
def exec (s : SysState) : List Op → SysState
  | [] => s
  | op :: t => exec (step s op) t

/-- The operation sequences the program can produce, relative to the sets of
object identities already registered (`reg`) and already torn down (`torn`):
`on_connect` always constructs a fresh `ChargePoint` object, so a register
uses a new identity; a supervisor body runs once per task, so a teardown
concerns a registered identity and happens at most once per session. -/
def validFrom (reg torn : List Oid) : List Op → Prop
  | [] => True
  | Op.register cp :: t => cp.oid ∉ reg ∧ validFrom (cp.oid :: reg) torn t
  | Op.teardown cp _ :: t =>
    cp.oid ∈ reg ∧ cp.oid ∉ torn ∧ validFrom reg (cp.oid :: torn) t
  | Op.disconnect _ :: t => validFrom reg torn t

/-- Decision procedure for `validFrom`. -/
def validFromDec : (t : List Op) → (reg torn : List Oid) →
    Decidable (validFrom reg torn t)
  | [], _, _ => Decidable.isTrue trivial
  | Op.register cp :: t, reg, torn =>
    haveI : Decidable (validFrom (cp.oid :: reg) torn t) :=
      validFromDec t (cp.oid :: reg) torn
    inferInstanceAs (Decidable (cp.oid ∉ reg ∧ validFrom (cp.oid :: reg) torn t))
  | Op.teardown cp _ :: t, reg, torn =>
    haveI : Decidable (validFrom reg (cp.oid :: torn) t) :=
      validFromDec t reg (cp.oid :: torn)
    inferInstanceAs
      (Decidable (cp.oid ∈ reg ∧ cp.oid ∉ torn ∧ validFrom reg (cp.oid :: torn) t))
  | Op.disconnect _ :: t, reg, torn => validFromDec t reg torn

instance (reg torn : List Oid) (t : List Op) : Decidable (validFrom reg torn t) :=
  validFromDec t reg torn

/-- Whether the trace registers a session with object identity `x`. -/
def registeredIn (t : List Op) (x : Oid) : Bool :=
  t.any fun op =>
    match op with
    | Op.register cp => decide (cp.oid = x)
    | _ => false

/-- Whether the trace tears down the session with object identity `x`. -/
def tornIn (t : List Op) (x : Oid) : Bool :=
  t.any fun op =>
    match op with
    | Op.teardown cp _ => decide (cp.oid = x)
    | _ => false

lemma disconnect_charger_no_match (d : Registry) (id : String)
    (h : ∀ e ∈ d, e.1.id ≠ id) :
    CentralSystem.disconnect_charger d id =
      (d, some (PyErr.valueError ("Charger " ++ id ++ " not connected."))) := by
  induction d with
  | nil => rfl
  | cons e rest ih =>
    obtain ⟨cp, tk⟩ := e
    have h1 : cp.id ≠ id := h (cp, tk) (List.mem_cons_self _ _)
    have h2 : ∀ e ∈ rest, e.1.id ≠ id := fun e he => h e (List.mem_cons_of_mem _ he)
    simp [CentralSystem.disconnect_charger, if_neg h1, ih h2]

lemma disconnect_charger_first_match (pre : Registry) (cpf : ChargePoint)
    (tk : TaskStatus) (post : Registry) (id : String)
    (hpre : ∀ e ∈ pre, e.1.id ≠ id) (hm : cpf.id = id) :
    CentralSystem.disconnect_charger (pre ++ (cpf, tk) :: post) id =
      (pre ++ (cpf, TaskStatus.cancelRequested) :: post, none) := by
  induction pre with
  | nil => simp [CentralSystem.disconnect_charger, if_pos hm]
  | cons e rest ih =>
    obtain ⟨cp, tk0⟩ := e
    have h1 : cp.id ≠ id := hpre (cp, tk0) (List.mem_cons_self _ _)
    have h2 : ∀ e ∈ rest, e.1.id ≠ id := fun e he => hpre e (List.mem_cons_of_mem _ he)
    simp [CentralSystem.disconnect_charger, if_neg h1, ih h2]

lemma get_configuration_no_match (d : Registry) (env : Env) (id : String)
    (h : ∀ e ∈ d, e.1.id ≠ id) :
    CentralSystem.get_configuration d env id =
      .error (PyErr.valueError ("Charger " ++ id ++ " not connected.")) := by
  induction d with
  | nil => rfl
  | cons e rest ih =>
    obtain ⟨cp, tk⟩ := e
    have h1 : cp.id ≠ id := h (cp, tk) (List.mem_cons_self _ _)
    have h2 : ∀ e ∈ rest, e.1.id ≠ id := fun e he => h e (List.mem_cons_of_mem _ he)
    simp [CentralSystem.get_configuration, if_neg h1, ih h2]

lemma get_configuration_first_match (pre : Registry) (cpf : ChargePoint)
    (tk : TaskStatus) (post : Registry) (env : Env) (id : String)
    (hpre : ∀ e ∈ pre, e.1.id ≠ id) (hm : cpf.id = id) :
    CentralSystem.get_configuration (pre ++ (cpf, tk) :: post) env id =
      ChargePoint.get_configuration env cpf := by
  induction pre with
  | nil => simp [CentralSystem.get_configuration, if_pos hm]
  | cons e rest ih =>
    obtain ⟨cp, tk0⟩ := e
    have h1 : cp.id ≠ id := hpre (cp, tk0) (List.mem_cons_self _ _)
    have h2 : ∀ e ∈ rest, e.1.id ≠ id := fun e he => hpre e (List.mem_cons_of_mem _ he)
    simp [CentralSystem.get_configuration, if_neg h1, ih h2]

lemma remote_start_no_match (d : Registry) (env : Env) (id idTag : String)
    (connectorId : Nat) (h : ∀ e ∈ d, e.1.id ≠ id) :
    CentralSystem.remote_start_transaction d env id idTag connectorId =
      .error (PyErr.valueError ("Charger " ++ id ++ " not connected.")) := by
  induction d with
  | nil => rfl
  | cons e rest ih =>
    obtain ⟨cp, tk⟩ := e
    have h1 : cp.id ≠ id := h (cp, tk) (List.mem_cons_self _ _)
    have h2 : ∀ e ∈ rest, e.1.id ≠ id := fun e he => h e (List.mem_cons_of_mem _ he)
    simp [CentralSystem.remote_start_transaction, if_neg h1, ih h2]

lemma remote_start_first_match (pre : Registry) (cpf : ChargePoint)
    (tk : TaskStatus) (post : Registry) (env : Env) (id idTag : String)
    (connectorId : Nat) (hpre : ∀ e ∈ pre, e.1.id ≠ id) (hm : cpf.id = id) :
    CentralSystem.remote_start_transaction (pre ++ (cpf, tk) :: post) env id
        idTag connectorId =
      ChargePoint.remote_start_transaction env cpf idTag connectorId := by
  induction pre with
  | nil => simp [CentralSystem.remote_start_transaction, if_pos hm]
  | cons e rest ih =>
    obtain ⟨cp, tk0⟩ := e
    have h1 : cp.id ≠ id := hpre (cp, tk0) (List.mem_cons_self _ _)
    have h2 : ∀ e ∈ rest, e.1.id ≠ id := fun e he => hpre e (List.mem_cons_of_mem _ he)
    simp [CentralSystem.remote_start_transaction, if_neg h1, ih h2]

/-- C3: `disconnect_charger` on an id with no live registry entry raises
`ValueError` ("not connected") and mutates nothing — the registry is returned
unchanged and no task status changes; on an id with a live entry it marks the
first matching session's supervisor task as cancel-requested and returns
success immediately, without removing the registry entry. -/
theorem C3_disconnect_cancel_or_not_connected (d : Registry) (id : String) :
    ((∀ e ∈ d, e.1.id ≠ id) →
      CentralSystem.disconnect_charger d id =
        (d, some (PyErr.valueError ("Charger " ++ id ++ " not connected.")))) ∧
    (∀ pre cpf tk post, d = pre ++ (cpf, tk) :: post →
      (∀ e ∈ pre, e.1.id ≠ id) → cpf.id = id →
      CentralSystem.disconnect_charger d id =
        (pre ++ (cpf, TaskStatus.cancelRequested) :: post, none)) := by
  refine ⟨disconnect_charger_no_match d id, ?_⟩
  rintro pre cpf tk post rfl hpre hm
  exact disconnect_charger_first_match pre cpf tk post id hpre hm

theorem C3_witness :
    CentralSystem.disconnect_charger [(⟨0, "A"⟩, TaskStatus.running)] "B" =
      ([(⟨0, "A"⟩, TaskStatus.running)],
        some (PyErr.valueError ("Charger " ++ "B" ++ " not connected."))) ∧
    CentralSystem.disconnect_charger [(⟨0, "A"⟩, TaskStatus.running)] "A" =
      ([(⟨0, "A"⟩, TaskStatus.cancelRequested)], none) :=
  ⟨(C3_disconnect_cancel_or_not_connected [(⟨0, "A"⟩, TaskStatus.running)] "B").1
      (by decide),
   (C3_disconnect_cancel_or_not_connected [(⟨0, "A"⟩, TaskStatus.running)] "A").2
      [] ⟨0, "A"⟩ TaskStatus.running [] rfl (by decide) rfl⟩

/-- C6: `get_configuration(id)` returns the correlated result of the outbound
GetConfiguration call issued against the session registered under `id` (the
first match in dict order) when one exists, and raises `ValueError`
("not connected") — a distinct, typed failure — when no live session has that
id. -/
theorem C6_get_configuration_result_or_not_connected (d : Registry) (env : Env)
    (id : String) :
    ((∀ e ∈ d, e.1.id ≠ id) →
      CentralSystem.get_configuration d env id =
        .error (PyErr.valueError ("Charger " ++ id ++ " not connected."))) ∧
    (∀ pre cpf tk post, d = pre ++ (cpf, tk) :: post →
      (∀ e ∈ pre, e.1.id ≠ id) → cpf.id = id →
      CentralSystem.get_configuration d env id =
        ChargePoint.get_configuration env cpf) := by
  refine ⟨get_configuration_no_match d env id, ?_⟩
  rintro pre cpf tk post rfl hpre hm
  exact get_configuration_first_match pre cpf tk post env id hpre hm

theorem C6_witness :
    CentralSystem.get_configuration [(⟨0, "A"⟩, TaskStatus.running)]
        (fun _ _ => .ok "conf") "B" =
      .error (PyErr.valueError ("Charger " ++ "B" ++ " not connected.")) ∧
    CentralSystem.get_configuration [(⟨0, "A"⟩, TaskStatus.running)]
        (fun _ _ => .ok "conf") "A" =
      ChargePoint.get_configuration (fun _ _ => .ok "conf") ⟨0, "A"⟩ :=
  ⟨(C6_get_configuration_result_or_not_connected [(⟨0, "A"⟩, TaskStatus.running)]
      (fun _ _ => .ok "conf") "B").1 (by decide),
   (C6_get_configuration_result_or_not_connected [(⟨0, "A"⟩, TaskStatus.running)]
      (fun _ _ => .ok "conf") "A").2 [] ⟨0, "A"⟩ TaskStatus.running [] rfl
      (by decide) rfl⟩

/-- C7: the remote-start administrative operation issues the remote-start call
against the session registered under the given id (the first match in dict
order) and returns that call's correlated result payload, or raises
`ValueError` ("not connected") when no live session has that id.  The
`CentralSystem`-level forwarding method is modelled from the spec (see
`CentralSystem.remote_start_transaction`). -/
theorem C7_remote_start_result_or_not_connected (d : Registry) (env : Env)
    (id idTag : String) (connectorId : Nat) :
    ((∀ e ∈ d, e.1.id ≠ id) →
      CentralSystem.remote_start_transaction d env id idTag connectorId =
        .error (PyErr.valueError ("Charger " ++ id ++ " not connected."))) ∧
    (∀ pre cpf tk post, d = pre ++ (cpf, tk) :: post →
      (∀ e ∈ pre, e.1.id ≠ id) → cpf.id = id →
      CentralSystem.remote_start_transaction d env id idTag connectorId =
        ChargePoint.remote_start_transaction env cpf idTag connectorId) := by
  refine ⟨remote_start_no_match d env id idTag connectorId, ?_⟩
  rintro pre cpf tk post rfl hpre hm
  exact remote_start_first_match pre cpf tk post env id idTag connectorId hpre hm

theorem C7_witness :
    CentralSystem.remote_start_transaction [(⟨0, "A"⟩, TaskStatus.running)]
        (fun _ _ => .ok "Accepted") "B" "an id tag" 1 =
      .error (PyErr.valueError ("Charger " ++ "B" ++ " not connected.")) ∧
    CentralSystem.remote_start_transaction [(⟨0, "A"⟩, TaskStatus.running)]
        (fun _ _ => .ok "Accepted") "A" "an id tag" 1 =
      ChargePoint.remote_start_transaction (fun _ _ => .ok "Accepted") ⟨0, "A"⟩
        "an id tag" 1 :=
  ⟨(C7_remote_start_result_or_not_connected [(⟨0, "A"⟩, TaskStatus.running)]
      (fun _ _ => .ok "Accepted") "B" "an id tag" 1).1 (by decide),
   (C7_remote_start_result_or_not_connected [(⟨0, "A"⟩, TaskStatus.running)]
      (fun _ _ => .ok "Accepted") "A" "an id tag" 1).2 [] ⟨0, "A"⟩
      TaskStatus.running [] rfl (by decide) rfl⟩

/-- C10: when several live registry entries carry the same session id, the
id-addressed operations `disconnect_charger` and `get_configuration` act on
exactly the first matching entry in registry insertion order and return
immediately after it: only that entry's task is cancel-requested, only that
session's call is issued, and every later entry — including later entries
with the same id — is left untouched. -/
theorem C10_first_match_only (pre : Registry) (cpf : ChargePoint)
    (tk : TaskStatus) (post : Registry) (env : Env) (id : String)
    (hpre : ∀ e ∈ pre, e.1.id ≠ id) (hm : cpf.id = id)
    (hdup : ∃ e ∈ post, e.1.id = id) :
    CentralSystem.disconnect_charger (pre ++ (cpf, tk) :: post) id =
      (pre ++ (cpf, TaskStatus.cancelRequested) :: post, none) ∧
    CentralSystem.get_configuration (pre ++ (cpf, tk) :: post) env id =
      ChargePoint.get_configuration env cpf :=
  ⟨disconnect_charger_first_match pre cpf tk post id hpre hm,
   get_configuration_first_match pre cpf tk post env id hpre hm⟩

theorem C10_witness :
    CentralSystem.disconnect_charger
        [(⟨0, "A"⟩, TaskStatus.running), (⟨1, "A"⟩, TaskStatus.running)] "A" =
      ([(⟨0, "A"⟩, TaskStatus.cancelRequested), (⟨1, "A"⟩, TaskStatus.running)],
        none) ∧
    CentralSystem.get_configuration
        [(⟨0, "A"⟩, TaskStatus.running), (⟨1, "A"⟩, TaskStatus.running)]
        (fun _ _ => .ok "conf") "A" =
      ChargePoint.get_configuration (fun _ _ => .ok "conf") ⟨0, "A"⟩ :=
  C10_first_match_only [] ⟨0, "A"⟩ TaskStatus.running
    [(⟨1, "A"⟩, TaskStatus.running)] (fun _ _ => .ok "conf") "A"
    (by decide) rfl (by decide)

/-- C8 counterexample: the removal step of teardown is `del self._chargers[cp]`;
performed when no entry for the session is present (here: the empty registry)
it raises `KeyError` instead of being a no-op, so the whole `finally` block
aborts with an error. -/
theorem C8_del_raises_when_absent :
    CentralSystem.start_charger initState ⟨0, "CP1"⟩ Outcome.normal =
      (initState, some PyErr.keyError) := by
  rfl

/-- C8 (amended): the registry removal performed in the supervisor's teardown
is not idempotent.  Removing a session whose entry is present removes exactly
that entry; removing when the entry is absent raises `KeyError`, which aborts
the rest of the `finally` block (the teardown signal is skipped) and leaves
the state unchanged. -/
theorem C8_teardown_removal_not_idempotent (s : SysState) (cp : ChargePoint)
    (o : Outcome) :
    ((∃ e ∈ s.chargers, e.1.oid = cp.oid) →
      ∃ d, dictDel s.chargers cp.oid = .ok d ∧
        ∀ e, e ∈ d ↔ (e ∈ s.chargers ∧ e.1.oid ≠ cp.oid)) ∧
    ((¬ ∃ e ∈ s.chargers, e.1.oid = cp.oid) →
      CentralSystem.start_charger s cp o = (s, some PyErr.keyError)) := by
  constructor
  · intro hex
    have hany : (s.chargers.any fun e => decide (e.1.oid = cp.oid)) = true := by
      simpa [List.any_eq_true] using hex
    refine ⟨s.chargers.filter fun e => decide (e.1.oid ≠ cp.oid), ?_, ?_⟩
    · unfold dictDel
      rw [if_pos hany]
    · intro e
      simp [List.mem_filter]
  · intro habs
    have hany : (s.chargers.any fun e => decide (e.1.oid = cp.oid)) = false := by
      cases hb : s.chargers.any fun e => decide (e.1.oid = cp.oid) with
      | false => rfl
      | true => exact absurd (by simpa [List.any_eq_true] using hb) habs
    unfold CentralSystem.start_charger dictDel
    rw [hany]
    simp

theorem C8_witness :
    (∃ d, dictDel [(⟨0, "A"⟩, TaskStatus.running)] 0 = .ok d ∧
      ∀ e, e ∈ d ↔
        (e ∈ [((⟨0, "A"⟩ : ChargePoint), TaskStatus.running)] ∧ e.1.oid ≠ 0)) ∧
    CentralSystem.start_charger initState ⟨1, "B"⟩ Outcome.cancelled =
      (initState, some PyErr.keyError) :=
  ⟨(C8_teardown_removal_not_idempotent ⟨[(⟨0, "A"⟩, TaskStatus.running)], []⟩
      ⟨0, "A"⟩ Outcome.normal).1 (by decide),
   (C8_teardown_removal_not_idempotent initState ⟨1, "B"⟩ Outcome.cancelled).2
      (by decide)⟩

lemma dictSet_absent (d : Registry) (cp : ChargePoint) (tk : TaskStatus)
    (h : ¬ ∃ e ∈ d, e.1.oid = cp.oid) : dictSet d cp tk = d ++ [(cp, tk)] := by
  have hany : (d.any fun e => decide (e.1.oid = cp.oid)) = false := by
    cases hb : d.any fun e => decide (e.1.oid = cp.oid) with
    | false => rfl
    | true => exact absurd (by simpa [List.any_eq_true] using hb) h
  unfold dictSet
  rw [hany]
  simp

lemma pyStripSlashes_all_slash (path : String)
    (h : ∀ c ∈ path.toList, c = '/') : pyStripSlashes path = "" := by
  have h1 : (path.toList.dropWhile fun c => decide (c = '/')) = [] :=
    List.dropWhile_eq_nil_iff.mpr fun c hc => by simpa using h c hc
  unfold pyStripSlashes
  rw [show (fun c => (c = '/' : Bool)) = fun c => decide (c = '/') from rfl, h1]
  rfl

/-- C9: on connection acceptance, for every proposed path string, an
all-slash (in particular empty) path yields the sentinel id `"none"` and the
connection is still accepted and registered — `on_connect` unconditionally
adds the new session to the registry; a path with any other character yields
the id obtained by stripping surrounding slashes, used as given. -/
theorem C9_on_connect_normalizes_and_registers (s : SysState) (path : String)
    (x : Oid) :
    ((¬ ∃ e ∈ s.chargers, e.1.oid = x) →
      ∃ e ∈ (on_connect s path x).chargers,
        e.1 = ChargePoint.mk x (on_connect_id path)) ∧
    ((∀ c ∈ path.toList, c = '/') → on_connect_id path = "none") ∧
    (pyStripSlashes path ≠ "" → on_connect_id path = pyStripSlashes path) := by
  refine ⟨?_, ?_, ?_⟩
  · intro habs
    have hset := dictSet_absent s.chargers ⟨x, on_connect_id path⟩
      TaskStatus.running habs
    refine ⟨(⟨x, on_connect_id path⟩, TaskStatus.running), ?_, rfl⟩
    show _ ∈ (CentralSystem.register_charger s _).chargers
    unfold CentralSystem.register_charger
    rw [hset]
    simp
  · intro hall
    unfold on_connect_id
    rw [pyStripSlashes_all_slash path hall]
    rfl
  · intro hne
    unfold on_connect_id
    rw [if_neg hne]

theorem C9_witness :
    (∃ e ∈ (on_connect initState "//CP1/" 0).chargers,
      e.1 = ChargePoint.mk 0 (on_connect_id "//CP1/")) ∧
    on_connect_id "///" = "none" ∧
    on_connect_id "//CP1/" = pyStripSlashes "//CP1/" :=
  ⟨(C9_on_connect_normalizes_and_registers initState "//CP1/" 0).1 (by decide),
   (C9_on_connect_normalizes_and_registers initState "///" 0).2.1 (by decide),
   (C9_on_connect_normalizes_and_registers initState "//CP1/" 0).2.2 (by decide)⟩

/-- Whether a correlated call completed without raising. -/
def exceptOk : Except PyErr CallResult → Bool
  | .ok _ => true
  | .error _ => false

lemma change_configuration_append_ok (pre rest : Registry) (env : Env)
    (key value : String)
    (h : ∀ e ∈ pre, exceptOk (ChargePoint.change_configuration env e.1 key value) = true) :
    CentralSystem.change_configuration (pre ++ rest) env key value =
      (pre.map Prod.fst ++ (CentralSystem.change_configuration rest env key value).1,
       (CentralSystem.change_configuration rest env key value).2) := by
  induction pre with
  | nil => simp
  | cons e pre ih =>
    obtain ⟨cp, tk⟩ := e
    have h1 := h (cp, tk) (List.mem_cons_self _ _)
    obtain ⟨v, hv⟩ : ∃ v, ChargePoint.change_configuration env cp key value = .ok v := by
      cases hc : ChargePoint.change_configuration env cp key value with
      | ok v => exact ⟨v, rfl⟩
      | error e => rw [hc] at h1; simp [exceptOk] at h1
    have h2 : ∀ e ∈ pre, exceptOk (ChargePoint.change_configuration env e.1 key value) = true :=
      fun e he => h e (List.mem_cons_of_mem _ he)
    simp [CentralSystem.change_configuration, hv, ih h2]

/-- C4 counterexample: with two registered sessions and a first call that
raises (here: a response timeout), the broadcast issues the failing call and
then aborts — the second registered session never receives its
configuration-change call, contradicting the claim that a per-session failure
does not abort the broadcast. -/
theorem C4_failure_aborts_broadcast :
    CentralSystem.change_configuration
        [(⟨0, "A"⟩, TaskStatus.running), (⟨1, "B"⟩, TaskStatus.running)]
        (fun cp _ => if cp.oid = 0 then .error PyErr.timeoutError else .ok "Accepted")
        "k" "v" =
      ([⟨0, "A"⟩], some PyErr.timeoutError) ∧
    (⟨1, "B"⟩ : ChargePoint) ∉
      (CentralSystem.change_configuration
        [(⟨0, "A"⟩, TaskStatus.running), (⟨1, "B"⟩, TaskStatus.running)]
        (fun cp _ => if cp.oid = 0 then .error PyErr.timeoutError else .ok "Accepted")
        "k" "v").1 := by
  decide

/-- C4 (amended): `change_configuration` issues configuration-change calls
sequentially in registry insertion order.  When every call succeeds, every
registered session receives exactly one call and the broadcast completes
normally.  When some call raises, the broadcast aborts at the first failing
session: the sessions before it each received exactly one call, the failing
session received its call, the exception propagates, and every later
registered session receives no call. -/
theorem C4_broadcast_aborts_at_first_failure (d : Registry) (env : Env)
    (key value : String) :
    ((∀ e ∈ d, exceptOk (ChargePoint.change_configuration env e.1 key value) = true) →
      CentralSystem.change_configuration d env key value = (d.map Prod.fst, none)) ∧
    (∀ pre ef post err, d = pre ++ ef :: post →
      (∀ e ∈ pre, exceptOk (ChargePoint.change_configuration env e.1 key value) = true) →
      ChargePoint.change_configuration env ef.1 key value = .error err →
      CentralSystem.change_configuration d env key value =
        (pre.map Prod.fst ++ [ef.1], some err)) := by
  constructor
  · intro h
    have happ := change_configuration_append_ok d [] env key value h
    rw [List.append_nil] at happ
    simpa [CentralSystem.change_configuration] using happ
  · rintro pre ef post err rfl hpre hf
    rw [change_configuration_append_ok pre (ef :: post) env key value hpre]
    obtain ⟨cp, tk⟩ := ef
    simp [CentralSystem.change_configuration, hf]

theorem C4_witness :
    CentralSystem.change_configuration [(⟨0, "A"⟩, TaskStatus.running)]
        (fun _ _ => .ok "Accepted") "k" "v" =
      ([(⟨0, "A"⟩ : ChargePoint)], none) ∧
    CentralSystem.change_configuration
        [(⟨0, "A"⟩, TaskStatus.running), (⟨1, "B"⟩, TaskStatus.running)]
        (fun cp _ => if cp.oid = 1 then .error PyErr.timeoutError else .ok "Accepted")
        "k" "v" =
      ([⟨0, "A"⟩, ⟨1, "B"⟩], some PyErr.timeoutError) :=
  ⟨(C4_broadcast_aborts_at_first_failure [(⟨0, "A"⟩, TaskStatus.running)]
      (fun _ _ => .ok "Accepted") "k" "v").1 (by decide),
   (C4_broadcast_aborts_at_first_failure
      [(⟨0, "A"⟩, TaskStatus.running), (⟨1, "B"⟩, TaskStatus.running)]
      (fun cp _ => if cp.oid = 1 then .error PyErr.timeoutError else .ok "Accepted")
      "k" "v").2 [(⟨0, "A"⟩, TaskStatus.running)] (⟨1, "B"⟩, TaskStatus.running)
      [] PyErr.timeoutError rfl (by decide) rfl⟩

/-- C5 (code bug): evaluating `change_configuration`'s loop under one
realizable interleaving — the second registered session's supervisor teardown
removes it from `self._chargers` while the loop is suspended awaiting the
first session's call — makes the resumed dict iteration raise
`RuntimeError("dictionary changed size during iteration")`: the broadcast
crashes instead of skipping the removed session. -/
theorem C5_broadcast_crashes_on_concurrent_removal :
    change_configuration_with_concurrent_teardown ⟨0, "A"⟩ ⟨1, "B"⟩
        (fun _ _ => .ok "Accepted") "k" "v" =
      .error (PyErr.runtimeError "dictionary changed size during iteration") := by
  rfl

/-- C2 counterexample: registering a second session whose id string `"A"` is
already carried by a live entry is a valid operation sequence (the two
`ChargePoint` objects are distinct dict keys), and afterwards the registry
holds two simultaneous live entries for the id `"A"`. -/
theorem C2_two_live_entries_same_id :
    validFrom [] [] [Op.register ⟨0, "A"⟩, Op.register ⟨1, "A"⟩] ∧
    ((exec initState [Op.register ⟨0, "A"⟩, Op.register ⟨1, "A"⟩]).chargers.filter
        fun e => decide (e.1.id = "A")).length = 2 := by
  constructor
  · decide
  · rfl

lemma mem_oidsOf (d : Registry) (x : Oid) :
    x ∈ oidsOf d ↔ ∃ e ∈ d, e.1.oid = x := by
  simp [oidsOf]

lemma oidsOf_append (d₁ d₂ : Registry) :
    oidsOf (d₁ ++ d₂) = oidsOf d₁ ++ oidsOf d₂ := by
  simp [oidsOf]

lemma oidsOf_filter_ne (d : Registry) (x : Oid) :
    oidsOf (d.filter fun e => decide (e.1.oid ≠ x)) =
      (oidsOf d).filter fun y => decide (y ≠ x) := by
  induction d with
  | nil => rfl
  | cons e rest ih =>
    by_cases h : e.1.oid = x <;>
      simp [oidsOf, List.filter_cons, h] <;>
      simpa [oidsOf] using ih

lemma disconnect_charger_oids (d : Registry) (id : String) :
    oidsOf (CentralSystem.disconnect_charger d id).1 = oidsOf d := by
  induction d with
  | nil => rfl
  | cons e rest ih =>
    obtain ⟨cp, tk⟩ := e
    by_cases h : cp.id = id <;>
      simp [CentralSystem.disconnect_charger, h, oidsOf] <;>
      simpa [oidsOf] using ih

lemma queuePut1_keys (qs : List (Oid × List Bool)) (x : Oid) (v : Bool) :
    (queuePut1 qs x v).map Prod.fst = qs.map Prod.fst := by
  unfold queuePut1
  rw [List.map_map]
  refine List.map_congr_left fun p _ => ?_
  by_cases h : p.1 = x <;> simp [h]

/-- Bookkeeping invariant tying the shared state to the identities already
registered (`reg`) and already torn down (`torn`). -/
structure SysInv (reg torn : List Oid) (s : SysState) : Prop where
  reg_nodup : reg.Nodup
  torn_sub : ∀ x ∈ torn, x ∈ reg
  chargers_iff : ∀ x, x ∈ oidsOf s.chargers ↔ (x ∈ reg ∧ x ∉ torn)
  chargers_nodup : (oidsOf s.chargers).Nodup
  queues_keys : s.queues.map Prod.fst = reg.reverse
  queues_val : ∀ p ∈ s.queues, p.2 = if p.1 ∈ torn then [true] else []

lemma invInit : SysInv [] [] initState := by
  constructor <;> simp [initState, oidsOf]

lemma SysInv.register_step {reg torn : List Oid} {s : SysState} (h : SysInv reg torn s)
    {cp : ChargePoint} (hf : cp.oid ∉ reg) :
    SysInv (cp.oid :: reg) torn (CentralSystem.register_charger s cp) := by
  have habs : ¬ ∃ e ∈ s.chargers, e.1.oid = cp.oid := by
    rw [← mem_oidsOf]
    intro hmem
    exact hf ((h.chargers_iff cp.oid).mp hmem).1
  have hset : dictSet s.chargers cp TaskStatus.running =
      s.chargers ++ [(cp, TaskStatus.running)] :=
    dictSet_absent _ _ _ habs
  have hnt : cp.oid ∉ torn := fun hx => hf (h.torn_sub _ hx)
  have hch : (CentralSystem.register_charger s cp).chargers =
      s.chargers ++ [(cp, TaskStatus.running)] := by
    simp [CentralSystem.register_charger, hset]
  have hq : (CentralSystem.register_charger s cp).queues =
      s.queues ++ [(cp.oid, [])] := rfl
  constructor
  · exact List.nodup_cons.mpr ⟨hf, h.reg_nodup⟩
  · exact fun x hx => List.mem_cons_of_mem _ (h.torn_sub x hx)
  · intro x
    rw [hch, oidsOf_append]
    by_cases hx : x = cp.oid
    · subst hx
      simp [oidsOf, hnt]
    · simp only [List.mem_append, List.mem_cons]
      rw [show oidsOf [(cp, TaskStatus.running)] = [cp.oid] from rfl]
      simp only [List.mem_singleton]
      rw [h.chargers_iff x]
      constructor
      · rintro (⟨hr, hn⟩ | he)
        · exact ⟨Or.inr hr, hn⟩
        · exact absurd he hx
      · rintro ⟨hr | hr, hn⟩
        · exact absurd hr hx
        · exact Or.inl ⟨hr, hn⟩
  · rw [hch, oidsOf_append]
    rw [show oidsOf [(cp, TaskStatus.running)] = [cp.oid] from rfl]
    rw [List.nodup_append]
    refine ⟨h.chargers_nodup, List.nodup_singleton _, ?_⟩
    intro y hy hy1
    rw [List.mem_singleton] at hy1
    subst hy1
    exact hf ((h.chargers_iff cp.oid).mp hy).1
  · rw [hq]
    simp [h.queues_keys]
  · intro p hp
    rw [hq] at hp
    rcases List.mem_append.mp hp with hp | hp
    · exact h.queues_val p hp
    · rw [List.mem_singleton] at hp
      subst hp
      simp [hnt]

lemma SysInv.teardown_step {reg torn : List Oid} {s : SysState}
    (h : SysInv reg torn s) {cp : ChargePoint} {o : Outcome}
    (hr : cp.oid ∈ reg) (hnt : cp.oid ∉ torn) :
    SysInv reg (cp.oid :: torn) (CentralSystem.start_charger s cp o).1 := by
  have hex : ∃ e ∈ s.chargers, e.1.oid = cp.oid :=
    (mem_oidsOf _ _).mp ((h.chargers_iff cp.oid).mpr ⟨hr, hnt⟩)
  have hany : (s.chargers.any fun e => decide (e.1.oid = cp.oid)) = true := by
    simpa [List.any_eq_true] using hex
  have hdel : dictDel s.chargers cp.oid =
      .ok (s.chargers.filter fun e => decide (e.1.oid ≠ cp.oid)) := by
    unfold dictDel
    rw [if_pos hany]
  have hst : (CentralSystem.start_charger s cp o).1 =
      { chargers := s.chargers.filter fun e => decide (e.1.oid ≠ cp.oid)
        queues := queuePut1 s.queues cp.oid true } := by
    simp [CentralSystem.start_charger, hdel]
  rw [hst]
  constructor
  · exact h.reg_nodup
  · intro x hx
    rcases List.mem_cons.mp hx with hx | hx
    · exact hx ▸ hr
    · exact h.torn_sub x hx
  · intro x
    show x ∈ oidsOf (s.chargers.filter fun e => decide (e.1.oid ≠ cp.oid)) ↔ _
    rw [oidsOf_filter_ne, List.mem_filter]
    simp only [decide_eq_true_eq, List.mem_cons]
    rw [h.chargers_iff x]
    constructor
    · rintro ⟨⟨hxr, hxn⟩, hne⟩
      exact ⟨hxr, fun hc => hc.elim hne hxn⟩
    · rintro ⟨hxr, hn⟩
      exact ⟨⟨hxr, fun hc => hn (Or.inr hc)⟩, fun hc => hn (Or.inl hc)⟩
  · show (oidsOf (s.chargers.filter fun e => decide (e.1.oid ≠ cp.oid))).Nodup
    rw [oidsOf_filter_ne]
    exact (List.filter_sublist _).nodup h.chargers_nodup
  · show (queuePut1 s.queues cp.oid true).map Prod.fst = reg.reverse
    rw [queuePut1_keys]
    exact h.queues_keys
  · intro p hp
    show p.2 = if p.1 ∈ cp.oid :: torn then [true] else []
    obtain ⟨q, hq, hqe⟩ := List.mem_map.mp hp
    have hval := h.queues_val q hq
    subst hqe
    by_cases hx : q.1 = cp.oid
    · have hq2 : q.2 = [] := by
        rw [hval, if_neg]
        intro hc
        exact hnt (hx ▸ hc)
      have hmem : q.1 ∈ cp.oid :: torn := by
        rw [hx]
        exact List.mem_cons_self _ _
      rw [if_pos hx, hq2]
      simp [hmem]
    · rw [if_neg hx, hval]
      by_cases ht : q.1 ∈ torn
      · rw [if_pos ht, if_pos (List.mem_cons_of_mem _ ht)]
      · rw [if_neg ht, if_neg]
        intro hc
        rcases List.mem_cons.mp hc with hc | hc
        · exact hx hc
        · exact ht hc

lemma SysInv.disconnect_step {reg torn : List Oid} {s : SysState}
    (h : SysInv reg torn s) (id : String) :
    SysInv reg torn (step s (Op.disconnect id)) := by
  have hch : (step s (Op.disconnect id)).chargers =
      (CentralSystem.disconnect_charger s.chargers id).1 := rfl
  have hq : (step s (Op.disconnect id)).queues = s.queues := rfl
  constructor
  · exact h.reg_nodup
  · exact h.torn_sub
  · intro x
    rw [hch, disconnect_charger_oids]
    exact h.chargers_iff x
  · rw [hch, disconnect_charger_oids]
    exact h.chargers_nodup
  · rw [hq]
    exact h.queues_keys
  · rw [hq]
    exact h.queues_val

lemma SysInv.queueOf_torn {reg torn : List Oid} {s : SysState}
    (h : SysInv reg torn s) {x : Oid} (hx : x ∈ torn) :
    queueOf s x = some [true] := by
  have hxr : x ∈ reg := h.torn_sub x hx
  have hmem : x ∈ s.queues.map Prod.fst := by
    rw [h.queues_keys]
    simpa using hxr
  obtain ⟨p, hp, hpx⟩ := List.mem_map.mp hmem
  have hsome : (s.queues.find? fun q => decide (q.1 = x)).isSome := by
    rw [List.find?_isSome]
    exact ⟨p, hp, by simpa using hpx⟩
  obtain ⟨q, hq⟩ := Option.isSome_iff_exists.mp hsome
  have hqx : q.1 = x := by simpa using List.find?_some hq
  have hqmem : q ∈ s.queues := List.mem_of_find?_eq_some hq
  have hval := h.queues_val q hqmem
  rw [queueOf, hq]
  rw [hqx] at hval
  simp [hval, if_pos hx]

lemma registeredIn_register_cons (cp : ChargePoint) (t : List Op) (x : Oid) :
    (registeredIn (Op.register cp :: t) x = true) ↔
      (x = cp.oid ∨ registeredIn t x = true) := by
  rw [show registeredIn (Op.register cp :: t) x =
    (decide (cp.oid = x) || registeredIn t x) from rfl]
  rw [Bool.or_eq_true, decide_eq_true_eq]
  constructor
  · rintro (h | h)
    · exact Or.inl h.symm
    · exact Or.inr h
  · rintro (h | h)
    · exact Or.inl h.symm
    · exact Or.inr h

lemma registeredIn_teardown_cons (cp : ChargePoint) (o : Outcome) (t : List Op)
    (x : Oid) : registeredIn (Op.teardown cp o :: t) x = registeredIn t x := by
  rw [show registeredIn (Op.teardown cp o :: t) x =
    (false || registeredIn t x) from rfl]
  rw [Bool.false_or]

lemma registeredIn_disconnect_cons (id : String) (t : List Op) (x : Oid) :
    registeredIn (Op.disconnect id :: t) x = registeredIn t x := by
  rw [show registeredIn (Op.disconnect id :: t) x =
    (false || registeredIn t x) from rfl]
  rw [Bool.false_or]

lemma tornIn_register_cons (cp : ChargePoint) (t : List Op) (x : Oid) :
    tornIn (Op.register cp :: t) x = tornIn t x := by
  rw [show tornIn (Op.register cp :: t) x = (false || tornIn t x) from rfl]
  rw [Bool.false_or]

lemma tornIn_teardown_cons (cp : ChargePoint) (o : Outcome) (t : List Op)
    (x : Oid) :
    (tornIn (Op.teardown cp o :: t) x = true) ↔ (x = cp.oid ∨ tornIn t x = true) := by
  rw [show tornIn (Op.teardown cp o :: t) x =
    (decide (cp.oid = x) || tornIn t x) from rfl]
  rw [Bool.or_eq_true, decide_eq_true_eq]
  constructor
  · rintro (h | h)
    · exact Or.inl h.symm
    · exact Or.inr h
  · rintro (h | h)
    · exact Or.inl h.symm
    · exact Or.inr h

lemma tornIn_disconnect_cons (id : String) (t : List Op) (x : Oid) :
    tornIn (Op.disconnect id :: t) x = tornIn t x := by
  rw [show tornIn (Op.disconnect id :: t) x = (false || tornIn t x) from rfl]
  rw [Bool.false_or]

lemma tornIn_of_mem {t : List Op} {cp : ChargePoint} {o : Outcome}
    (h : Op.teardown cp o ∈ t) : tornIn t cp.oid = true := by
  rw [tornIn, List.any_eq_true]
  exact ⟨Op.teardown cp o, h, by simp⟩

lemma exec_inv (t : List Op) : ∀ (reg torn : List Oid) (s : SysState),
    validFrom reg torn t → SysInv reg torn s →
    ∃ reg' torn', SysInv reg' torn' (exec s t) ∧
      (∀ x, x ∈ reg' ↔ (x ∈ reg ∨ registeredIn t x = true)) ∧
      (∀ x, x ∈ torn' ↔ (x ∈ torn ∨ tornIn t x = true)) := by
  induction t with
  | nil =>
    intro reg torn s _ h
    exact ⟨reg, torn, h, by simp [registeredIn], by simp [tornIn]⟩
  | cons op t ih =>
    intro reg torn s hv h
    cases op with
    | register cp =>
      obtain ⟨hf, hv'⟩ := hv
      obtain ⟨reg', torn', hi, hr, ht⟩ :=
        ih (cp.oid :: reg) torn _ hv' (h.register_step hf)
      refine ⟨reg', torn', hi, ?_, ?_⟩
      · intro x
        rw [hr x, List.mem_cons, registeredIn_register_cons]
        tauto
      · intro x
        rw [ht x, tornIn_register_cons]
    | teardown cp o =>
      obtain ⟨hrm, hnt, hv'⟩ := hv
      obtain ⟨reg', torn', hi, hr, ht⟩ :=
        ih reg (cp.oid :: torn) _ hv' (h.teardown_step hrm hnt)
      refine ⟨reg', torn', hi, ?_, ?_⟩
      · intro x
        rw [hr x, registeredIn_teardown_cons]
      · intro x
        rw [ht x, List.mem_cons, tornIn_teardown_cons]
        tauto
    | disconnect id =>
      obtain ⟨reg', torn', hi, hr, ht⟩ :=
        ih reg torn _ hv (h.disconnect_step id)
      refine ⟨reg', torn', hi, ?_, ?_⟩
      · intro x
        rw [hr x, registeredIn_disconnect_cons]
      · intro x
        rw [ht x, tornIn_disconnect_cons]

/-- C1: in every operation sequence the program can produce, whenever a
session's read loop completes for any reason (normal return, error, or
cancellation) its supervisor `start_charger` runs teardown exactly once: at
the end of the sequence the session's registry entry is gone and the
capacity-1 teardown queue returned by `register_charger` for that session
holds exactly one signal — it was fired (teardown was not skipped) and it was
fired exactly once (never a second time). -/
theorem C1_teardown_runs_exactly_once (t : List Op) (hv : validFrom [] [] t)
    (cp : ChargePoint) (o : Outcome) (hmem : Op.teardown cp o ∈ t) :
    (¬ ∃ e ∈ (exec initState t).chargers, e.1.oid = cp.oid) ∧
    queueOf (exec initState t) cp.oid = some [true] := by
  obtain ⟨reg', torn', hi, hr, ht⟩ := exec_inv t [] [] initState hv invInit
  have htorn : cp.oid ∈ torn' := (ht cp.oid).mpr (Or.inr (tornIn_of_mem hmem))
  constructor
  · rw [← mem_oidsOf]
    intro hx
    exact ((hi.chargers_iff cp.oid).mp hx).2 htorn
  · exact hi.queueOf_torn htorn

theorem C1_witness :
    (¬ ∃ e ∈ (exec initState
        [Op.register ⟨0, "CP1"⟩, Op.teardown ⟨0, "CP1"⟩ Outcome.cancelled]).chargers,
      e.1.oid = 0) ∧
    queueOf (exec initState
        [Op.register ⟨0, "CP1"⟩, Op.teardown ⟨0, "CP1"⟩ Outcome.cancelled]) 0 =
      some [true] :=
  C1_teardown_runs_exactly_once
    [Op.register ⟨0, "CP1"⟩, Op.teardown ⟨0, "CP1"⟩ Outcome.cancelled]
    (by decide) ⟨0, "CP1"⟩ Outcome.cancelled (by decide)

/-- C2 (amended): for every operation sequence the program can produce, the
registry holds at most one live entry per session object (the dict key is the
`ChargePoint` object, whose identity is unique), and an entry for a session
exists if and only if that session is between registration and teardown
completion.  Per-id uniqueness, by contrast, fails (see the counterexample):
two live entries may carry the same id string. -/
theorem C2_entries_track_sessions (t : List Op) (hv : validFrom [] [] t) :
    (oidsOf (exec initState t).chargers).Nodup ∧
    ∀ x, (∃ e ∈ (exec initState t).chargers, e.1.oid = x) ↔
      (registeredIn t x = true ∧ ¬ tornIn t x = true) := by
  obtain ⟨reg', torn', hi, hr, ht⟩ := exec_inv t [] [] initState hv invInit
  refine ⟨hi.chargers_nodup, fun x => ?_⟩
  rw [← mem_oidsOf, hi.chargers_iff x, hr x, ht x]
  simp

theorem C2_witness :
    (oidsOf (exec initState [Op.register ⟨0, "CP1"⟩]).chargers).Nodup ∧
    ((∃ e ∈ (exec initState [Op.register ⟨0, "CP1"⟩]).chargers, e.1.oid = 0) ↔
      (registeredIn [Op.register ⟨0, "CP1"⟩] 0 = true ∧
        ¬ tornIn [Op.register ⟨0, "CP1"⟩] 0 = true)) :=
  ⟨(C2_entries_track_sessions [Op.register ⟨0, "CP1"⟩] (by decide)).1,
   (C2_entries_track_sessions [Op.register ⟨0, "CP1"⟩] (by decide)).2 0⟩
